import Mathlib

/-!
Shallow embedding of the plonkish fibonacci sample repository.

The circuit logic is translated from `circuit/src/circuit.rs`
(`FibonacciChip`, `FibonacciCircuit::synthesize`, `generate_halo2_proof`,
`verify_halo2_proof`), the public-input serialisation from
`circuit/src/serialisation.rs` (`InputsSerialisationWrapper` under the
`bincode` framing used by `lib.rs`), and the plonk crate's public-input
construction from `plonk/src/lib.rs`.  The external `plonkish_backend`
crate is not part of the repository; the few definitions that stand in
for it are modelled from the specification's backend contract and are
marked as such in their doc comments.
-/

/-- Modulus of the scalar field `bn256::Fr` used throughout the crate
(from `halo2curves`). -/
def frModulus : Nat :=
  21888242871839275222246405745257275088548364400416034343698204186575808495617

instance : NeZero frModulus := ⟨by decide⟩

/-- Field elements of `bn256::Fr`, represented by their canonical value. -/
abbrev Fr : Type := Fin frModulus

/-- Largest representable field element, `frModulus - 1`. -/
def frMax : Fr := ⟨frModulus - 1, by decide⟩

/-- Little-endian encoding of `n` into exactly `w` bytes. -/
def toBytesLE : Nat → Nat → List Nat
  | 0, _ => []
  | w + 1, n => n % 256 :: toBytesLE w (n / 256)

/-- Little-endian value of a byte list. -/
def fromBytesLE : List Nat → Nat
  | [] => 0
  | b :: bs => b + 256 * fromBytesLE bs

/-- Embeds `Fr::to_bytes`: the canonical 32-byte little-endian encoding of a
field element. -/
def frToBytes (x : Fr) : List Nat := toBytesLE 32 x.val

/-- Embeds `Fr::from_bytes`: decode 32 little-endian bytes, succeeding exactly
when the value is canonical (strictly below the modulus). -/
def frFromBytes (bs : List Nat) : Option Fr :=
  if h : fromBytesLE bs < frModulus then some ⟨fromBytesLE bs, h⟩ else none

/-- Embeds `bincode::serialize` of `InputsSerialisationWrapper(v)`
(`serialisation.rs`, `Serialize` impl): an 8-byte little-endian length
prefix followed by each element's 32-byte canonical encoding. -/
def encodeInputs (v : List Fr) : List Nat :=
  toBytesLE 8 v.length ++ (v.map frToBytes).flatten

/-- Outcome of deserialising public inputs; `panic` records an abort raised by
`expect`, as distinct from an error value returned to the caller. -/
inductive DeserOutcome where
  | ok (v : List Fr)
  | error
  | panic (msg : String)
deriving DecidableEq

/-- Embeds the element loop of `InputsSerialisationWrapper::deserialize`'s
`visit_seq` (`serialisation.rs` lines 63-72) reading `count` 32-byte chunks:
a missing or short chunk is a deserialisation error, while a chunk whose
value is not canonical hits `Fr::from_bytes(..).expect("Invalid bytes")`,
which panics. -/
def decodeElems : Nat → List Nat → DeserOutcome
  | 0, _ => .ok []
  | count + 1, bytes =>
    if bytes.length < 32 then .error
    else
      match frFromBytes (bytes.take 32) with
      | none => .panic ("Invalid bytes")
      | some f =>
        match decodeElems count (bytes.drop 32) with
        | .ok v => .ok (f :: v)
        | r => r

/-- Embeds `bincode::deserialize::<InputsSerialisationWrapper>`: read the
8-byte little-endian length prefix, then that many 32-byte elements. -/
def decodeInputs (bytes : List Nat) : DeserOutcome :=
  if bytes.length < 8 then .error
  else decodeElems (fromBytesLE (bytes.take 8)) (bytes.drop 8)

/-- One synthesised circuit row: the three advice cells of `col_a`, `col_b`,
`col_c` and whether the row's selector is enabled. -/
structure RowAssign where
  a : Fr
  b : Fr
  c : Fr
  selector : Bool
deriving DecidableEq

/-- Embeds `FibonacciChip::assign_first_row`: `a` and `b` are copied from
instance slots 0 and 1, `c := a + b`, and the selector is enabled. -/
def assign_first_row (i0 i1 : Fr) : RowAssign := ⟨i0, i1, i0 + i1, true⟩

/-- Embeds `FibonacciChip::assign_row`: `a` and `b` are copied from the
previous row's `b` and `c` cells, `c := a + b`, and the selector is
enabled. -/
def assign_row (prev_b prev_c : Fr) : RowAssign := ⟨prev_b, prev_c, prev_b + prev_c, true⟩

/-- One step of `FibonacciCircuit::synthesize`, in execution order. -/
inductive SynthStep where
  | firstRow (a b c : Fr) (selectorEnabled : Bool)
  | nextRow (a b c : Fr) (selectorEnabled : Bool)
  | exposePublic (cellValue : Fr) (instanceRow : Nat)
deriving DecidableEq

/-- Embeds the `for _i in 3..10` loop of `FibonacciCircuit::synthesize`:
each iteration calls `assign_row` on the running `prev_b`, `prev_c`
handles and then shifts them (`prev_b = prev_c; prev_c = c_cell`).
Returns the emitted steps together with the final `prev_c` handle. -/
def synthesizeLoop : Nat → Fr → Fr → List SynthStep × Fr
  | 0, _, prev_c => ([], prev_c)
  | n + 1, prev_b, prev_c =>
    let r := assign_row prev_b prev_c
    let rest := synthesizeLoop n r.b r.c
    (SynthStep.nextRow r.a r.b r.c r.selector :: rest.1, rest.2)

/-- Number of iterations of the `for _i in 3..10` loop. -/
def loopCount : Nat := 10 - 3

/-- Embeds `FibonacciCircuit::synthesize` for instance column values
`i0`, `i1`: assign the first row, run the loop, then `expose_public`
binds the final `c` cell to instance row 2. -/
def synthesizeSteps (i0 i1 : Fr) : List SynthStep :=
  let first := assign_first_row i0 i1
  let rest := synthesizeLoop loopCount first.b first.c
  SynthStep.firstRow first.a first.b first.c first.selector ::
    rest.1 ++ [SynthStep.exposePublic rest.2 2]

/-- Rows of the synthesised witness grid; each single-row region of the
synthesis trace occupies one consecutive row. -/
def synthesizeRows (i0 i1 : Fr) : List RowAssign :=
  (synthesizeSteps i0 i1).filterMap fun s =>
    match s with
    | .firstRow a b c sel => some ⟨a, b, c, sel⟩
    | .nextRow a b c sel => some ⟨a, b, c, sel⟩
    | .exposePublic _ _ => none

/-- Recurrence `term[i] = term[i-1] + term[i-2]` with seeds `x`, `y`. -/
def fibTerm (x y : Fr) : Nat → Fr
  | 0 => x
  | 1 => y
  | n + 2 => fibTerm x y n + fibTerm x y (n + 1)

/-- Embeds the "add" gate registered by `FibonacciChip::configure`:
`s * (a + b - c) = 0` on a row. -/
def gateHolds (r : RowAssign) : Bool :=
  decide (((if r.selector then (1 : Fr) else 0) * (r.a + r.b - r.c)) = 0)

/-- Copy constraints created by `copy_advice` in `assign_row`: each row's
`a` and `b` cells equal the previous row's `b` and `c` cells. -/
def copiesHold : List RowAssign → Bool
  | r1 :: r2 :: rest =>
    (decide (r2.a = r1.b) && decide (r2.b = r1.c)) && copiesHold (r2 :: rest)
  | _ => true

/-- Equality constraints binding the witness to the instance column:
`assign_advice_from_instance` ties row 0's `a`, `b` to instance slots 0, 1
and `expose_public` (`constrain_instance`) ties the last row's `c` to
instance slot 2. -/
def instanceBindingsHold (rows : List RowAssign) (inst : List Fr) : Bool :=
  match rows.head?, rows.getLast?, inst with
  | some r0, some rl, [i0, i1, i2] =>
    decide (r0.a = i0) && decide (r0.b = i1) && decide (rl.c = i2)
  | _, _, _ => false

/-- Local satisfaction check of the synthesised constraint system against an
instance vector: every row's gate, every copy constraint, and the three
instance bindings. -/
def constraintsSatisfied (inst : List Fr) : Bool :=
  match inst with
  | [i0, i1, _] =>
    let rows := synthesizeRows i0 i1
    rows.all gateHolds && copiesHold rows && instanceBindingsHold rows inst
  | _ => false

/-- Modelled from the spec: the failure kinds of the external
`plonkish_backend` verifier, which is not part of the repository.  The
spec distinguishes malformed proof framing from a consistency-check
failure; the repository's test expects the latter to be
`InvalidSumcheck("Consistency failure at round 1")`. -/
inductive BackendError where
  | invalidSumcheck (msg : String)
  | transcript (msg : String)
deriving DecidableEq

/-- Modelled from the spec: the `{:?}` debug rendering of a backend error,
as interpolated by `verify_halo2_proof`'s error message. -/
def backendErrorRepr : BackendError → String
  | .invalidSumcheck msg => "InvalidSumcheck(\"" ++ msg ++ "\")"
  | .transcript msg => "Transcript(\"" ++ msg ++ "\")"

/-- Modelled from the spec: a backend proof binds the instance vector used
by the prover and carries a randomness-derived blinding component. -/
structure BackendProof where
  committedInstances : List Fr
  blinding : Nat
deriving DecidableEq

/-- Modelled from the spec: `PlonkishBackend::prove` is deterministic given
the witness and the randomness seed; the seed (a 64-bit quantity) enters
the proof only through blinding. -/
def backendProve (instances : List Fr) (rngSeed : Nat) : BackendProof :=
  ⟨instances, rngSeed % 2 ^ 64⟩

/-- Modelled from the spec: the opaque proof byte string emitted by
`Keccak256Transcript::into_proof`, carrying the prover's commitments and
blinding. -/
def backendProofBytes (pr : BackendProof) : List Nat :=
  (pr.committedInstances.map frToBytes).flatten ++ toBytesLE 8 pr.blinding

/-- Modelled from the spec: parsing of the backend framing when the verifier
reads the proof transcript (`Keccak256Transcript::from_proof`); framing
that cannot be parsed is a malformed proof. -/
def parseProof (bytes : List Nat) : Option BackendProof :=
  if bytes.length = 104 then
    match frFromBytes (bytes.take 32), frFromBytes ((bytes.drop 32).take 32),
        frFromBytes ((bytes.drop 64).take 32) with
    | some f0, some f1, some f2 => some ⟨[f0, f1, f2], fromBytesLE (bytes.drop 96)⟩
    | _, _, _ => none
  else none

/-- Modelled from the spec: `PlonkishBackend::verify` accepts exactly when
the supplied public inputs are the ones bound by the proof and they
satisfy the circuit's constraint system; any mismatch is rejected
deterministically at the first sumcheck consistency round. -/
def backendVerify (instances : List Fr) (pr : BackendProof) : Except BackendError Unit :=
  if pr.committedInstances = instances ∧ constraintsSatisfied instances = true then .ok ()
  else .error (.invalidSumcheck ("Consistency failure at round 1"))

/-- Modelled from the spec: verification on raw proof bytes, first parsing
the backend framing and then running the consistency checks. -/
def backendVerifyBytes (instances : List Fr) (proof : List Nat) : Except BackendError Unit :=
  match parseProof proof with
  | none => .error (.transcript ("invalid proof encoding"))
  | some pr => backendVerify instances pr

/-- Embeds `HashMap::get` composed with `Vec::get` lookups on the input map
of `generate_halo2_proof`. -/
def lookupInput : List (String × List Fr) → String → Option (List Fr)
  | [], _ => none
  | (k, v) :: rest, key => if k = key then some v else lookupInput rest key

/-- Size exponent fixed by `generate_halo2_proof` (`let k = 4usize`). -/
def sizeExponent : Nat := 4

/-- Embeds `generate_halo2_proof` (`circuit.rs` lines 225-272): the seeds are
hard-coded to `Fr::from(1)`, the `out` entry of the input map supplies the
declared output (a missing entry is a `FibonacciError`), the public input
vector is `[a, b, out]`, and the backend prover is run on the synthesised
circuit, returning the proof bytes together with the public inputs. -/
def generate_halo2_proof (inputs : List (String × List Fr)) (rngSeed : Nat) :
    Except String (List Nat × List Fr) :=
  let a : Fr := 1
  let b : Fr := 1
  match lookupInput inputs "out" with
  | none => .error ("Failed to get `out` value")
  | some vs =>
    match vs.head? with
    | none => .error ("Failed to get `out` value")
    | some out =>
      let public_input := [a, b, out]
      let proof := backendProofBytes (backendProve public_input rngSeed)
      .ok (proof, public_input)

/-- Embeds `verify_halo2_proof` (`circuit.rs` lines 274-293): run the backend
verifier on the proof bytes and public inputs; success maps to `true` and
a backend error is wrapped as
`FibonacciError("Verifying proof error: {:?}")`. -/
def verify_halo2_proof (proof : List Nat) (inputs : List Fr) : Except String Bool :=
  match backendVerifyBytes inputs proof with
  | .ok _ => .ok true
  | .error e => .error ("Verifying proof error: " ++ backendErrorRepr e)

/-- Embeds the public-input construction of the plonk crate's
`prove_with_params` (`plonk/src/lib.rs` lines 94-105): take `out` from the
deserialised input map (a missing entry is a `FibonacciError`) and build
`vec![Fr::from(1), Fr::from(1), out]`. -/
def plonkPublicInput (circuitInputs : List (String × List Fr)) : Except String (List Fr) :=
  match lookupInput circuitInputs "out" with
  | none => .error ("Failed to get `out` value")
  | some vs =>
    match vs.head? with
    | none => .error ("Failed to get `out` value")
    | some out => .ok [1, 1, out]

theorem length_toBytesLE (w n : Nat) : (toBytesLE w n).length = w := by
  induction w generalizing n with
  | zero => rfl
  | succ w ih => simp [toBytesLE, ih]

theorem fromBytesLE_toBytesLE (w n : Nat) (h : n < 256 ^ w) :
    fromBytesLE (toBytesLE w n) = n := by
  induction w generalizing n with
  | zero => simp at h; simp [toBytesLE, fromBytesLE, h]
  | succ w ih =>
    have hdiv : n / 256 < 256 ^ w := by
      rw [Nat.div_lt_iff_lt_mul (by norm_num)]
      calc n < 256 ^ (w + 1) := h
        _ = 256 ^ w * 256 := by rw [Nat.pow_succ]
    simp [toBytesLE, fromBytesLE, ih _ hdiv, Nat.mod_add_div]

theorem frModulus_lt : frModulus < 256 ^ 32 := by decide

theorem frFromBytes_frToBytes (f : Fr) : frFromBytes (frToBytes f) = some f := by
  have h : fromBytesLE (toBytesLE 32 f.val) = f.val :=
    fromBytesLE_toBytesLE 32 f.val (lt_trans f.isLt frModulus_lt)
  simp [frFromBytes, frToBytes, h, f.isLt]

theorem take_bytes_append (w n : Nat) (rest : List Nat) :
    (toBytesLE w n ++ rest).take w = toBytesLE w n := by
  rw [List.take_append_eq_append_take, length_toBytesLE]
  simp [List.take_of_length_le (le_of_eq (length_toBytesLE w n))]

theorem drop_bytes_append (w n : Nat) (rest : List Nat) :
    (toBytesLE w n ++ rest).drop w = rest := by
  rw [List.drop_append_eq_append_drop, length_toBytesLE]
  simp [List.drop_of_length_le (le_of_eq (length_toBytesLE w n))]

theorem decodeElems_succ (count : Nat) (bytes : List Nat) :
    decodeElems (count + 1) bytes =
      if bytes.length < 32 then .error
      else
        match frFromBytes (bytes.take 32) with
        | none => .panic ("Invalid bytes")
        | some f =>
          match decodeElems count (bytes.drop 32) with
          | .ok v => .ok (f :: v)
          | r => r := rfl

theorem decodeElems_encode (v : List Fr) :
    decodeElems v.length ((v.map frToBytes).flatten) = .ok v := by
  induction v with
  | nil => rfl
  | cons f rest ih =>
    have hTake : (frToBytes f ++ (rest.map frToBytes).flatten).take 32 = frToBytes f :=
      take_bytes_append 32 f.val ((rest.map frToBytes).flatten)
    have hDrop : (frToBytes f ++ (rest.map frToBytes).flatten).drop 32 =
        (rest.map frToBytes).flatten :=
      drop_bytes_append 32 f.val ((rest.map frToBytes).flatten)
    have hLen : ¬ ((frToBytes f ++ (rest.map frToBytes).flatten).length < 32) := by
      rw [List.length_append, frToBytes, length_toBytesLE]; omega
    simp only [List.length_cons, List.map_cons, List.flatten_cons]
    rw [decodeElems_succ, if_neg hLen, hTake, frFromBytes_frToBytes, hDrop, ih]

theorem decode_encode (v : List Fr) (h : v.length < 2 ^ 64) :
    decodeInputs (encodeInputs v) = .ok v := by
  have hTake := take_bytes_append 8 v.length ((v.map frToBytes).flatten)
  have hDrop := drop_bytes_append 8 v.length ((v.map frToBytes).flatten)
  have hLen : ¬ ((toBytesLE 8 v.length ++ (v.map frToBytes).flatten).length < 8) := by
    rw [List.length_append, length_toBytesLE]; omega
  have hval : fromBytesLE (toBytesLE 8 v.length) = v.length :=
    fromBytesLE_toBytesLE 8 v.length (by simpa using h)
  simp only [decodeInputs, encodeInputs]
  rw [if_neg hLen, hTake, hDrop, hval, decodeElems_encode]

theorem parseProof_roundTrip (f0 f1 f2 : Fr) (b : Nat) (hb : b < 2 ^ 64) :
    parseProof (backendProofBytes ⟨[f0, f1, f2], b⟩) = some ⟨[f0, f1, f2], b⟩ := by
  have e : backendProofBytes ⟨[f0, f1, f2], b⟩ =
      frToBytes f0 ++ (frToBytes f1 ++ (frToBytes f2 ++ toBytesLE 8 b)) := by
    simp [backendProofBytes]
  have hlen : (frToBytes f0 ++ (frToBytes f1 ++ (frToBytes f2 ++ toBytesLE 8 b))).length = 104 := by
    simp [List.length_append, frToBytes, length_toBytesLE]
  have h1 : (frToBytes f0 ++ (frToBytes f1 ++ (frToBytes f2 ++ toBytesLE 8 b))).take 32 =
      frToBytes f0 := take_bytes_append 32 f0.val _
  have hd1 : (frToBytes f0 ++ (frToBytes f1 ++ (frToBytes f2 ++ toBytesLE 8 b))).drop 32 =
      frToBytes f1 ++ (frToBytes f2 ++ toBytesLE 8 b) := drop_bytes_append 32 f0.val _
  have h2 : (frToBytes f1 ++ (frToBytes f2 ++ toBytesLE 8 b)).take 32 = frToBytes f1 :=
    take_bytes_append 32 f1.val _
  have hd2 : (frToBytes f1 ++ (frToBytes f2 ++ toBytesLE 8 b)).drop 32 =
      frToBytes f2 ++ toBytesLE 8 b := drop_bytes_append 32 f1.val _
  have h3 : (frToBytes f2 ++ toBytesLE 8 b).take 32 = frToBytes f2 :=
    take_bytes_append 32 f2.val _
  have hd3 : (frToBytes f2 ++ toBytesLE 8 b).drop 32 = toBytesLE 8 b :=
    drop_bytes_append 32 f2.val _
  have hdrop64 : (frToBytes f0 ++ (frToBytes f1 ++ (frToBytes f2 ++ toBytesLE 8 b))).drop 64 =
      frToBytes f2 ++ toBytesLE 8 b := by
    rw [show (64 : Nat) = 32 + 32 from rfl, ← List.drop_drop, hd1, hd2]
  have hdrop96 : (frToBytes f0 ++ (frToBytes f1 ++ (frToBytes f2 ++ toBytesLE 8 b))).drop 96 =
      toBytesLE 8 b := by
    rw [show (96 : Nat) = 32 + 64 from rfl, ← List.drop_drop, hd1,
      show (64 : Nat) = 32 + 32 from rfl, ← List.drop_drop, hd2, hd3]
  have hb' : fromBytesLE (toBytesLE 8 b) = b :=
    fromBytesLE_toBytesLE 8 b (by norm_num at hb ⊢; omega)
  rw [e, parseProof]
  rw [if_pos hlen, h1, hd1, h2, hdrop64, h3, frFromBytes_frToBytes, frFromBytes_frToBytes,
    frFromBytes_frToBytes, hdrop96, hb']

theorem generate_out55_eq (s : Nat) :
    generate_halo2_proof [("out", [(55 : Fr)])] s =
      .ok (backendProofBytes (backendProve [1, 1, 55] s), [1, 1, 55]) := rfl

theorem backendVerifyBytes_roundTrip (f0 f1 f2 : Fr) (b : Nat) (hb : b < 2 ^ 64)
    (inst : List Fr) :
    backendVerifyBytes inst (backendProofBytes ⟨[f0, f1, f2], b⟩) =
      backendVerify inst ⟨[f0, f1, f2], b⟩ := by
  unfold backendVerifyBytes
  rw [parseProof_roundTrip f0 f1 f2 b hb]

theorem verify_prove55 (s : Nat) :
    verify_halo2_proof (backendProofBytes (backendProve [1, 1, 55] s)) [1, 1, 55] = .ok true := by
  unfold verify_halo2_proof
  rw [show backendProve [1, 1, (55 : Fr)] s = ⟨[1, 1, 55], s % 2 ^ 64⟩ from rfl]
  rw [backendVerifyBytes_roundTrip 1 1 55 (s % 2 ^ 64) (Nat.mod_lt _ (by norm_num)) [1, 1, 55]]
  unfold backendVerify
  rw [if_pos ⟨rfl, by decide⟩]

/-- Claim C1: for seed pair (1,1) and declared output 55, running
`generate_halo2_proof` with `out = 55` and then `verify_halo2_proof` on the
resulting proof and public input vector [1, 1, 55] returns accept
(`Ok(true)`). -/
theorem prove_then_verify_accepts_55 (rngSeed : Nat) :
    ∃ proof : List Nat,
      generate_halo2_proof [("out", [(55 : Fr)])] rngSeed = .ok (proof, [1, 1, 55]) ∧
      verify_halo2_proof proof [1, 1, 55] = .ok true :=
  ⟨_, generate_out55_eq rngSeed, verify_prove55 rngSeed⟩

/-- Claim C2: every proof produced for public input vector [1, 1, 55],
verified against a public input vector whose third element differs,
is deterministically rejected with the consistency-check error of
sumcheck round 1; it is never accepted. -/
theorem verify_rejects_mismatched_public_input (rngSeed : Nat) (proof : List Nat)
    (pub : List Fr) (out' : Fr)
    (hgen : generate_halo2_proof [("out", [(55 : Fr)])] rngSeed = .ok (proof, pub))
    (hne : out' ≠ 55) :
    verify_halo2_proof proof [1, 1, out'] =
      .error ("Verifying proof error: InvalidSumcheck(\"Consistency failure at round 1\")") := by
  rw [generate_out55_eq] at hgen
  have hproof : proof = backendProofBytes (backendProve [1, 1, 55] rngSeed) := by
    cases hgen; rfl
  subst hproof
  have hcond : ¬ (([1, 1, (55 : Fr)] = [1, 1, out']) ∧
      constraintsSatisfied [1, 1, out'] = true) := by
    intro hc
    have h1 := hc.1
    simp only [List.cons.injEq] at h1
    exact hne h1.2.2.1.symm
  unfold verify_halo2_proof
  rw [show backendProve [1, 1, (55 : Fr)] rngSeed = ⟨[1, 1, 55], rngSeed % 2 ^ 64⟩ from rfl]
  rw [backendVerifyBytes_roundTrip 1 1 55 (rngSeed % 2 ^ 64) (Nat.mod_lt _ (by norm_num))
    [1, 1, out']]
  unfold backendVerify
  rw [if_neg hcond]
  rfl

/-- Claim C2 witness: the proof generated with seed 0 for output 55, verified
against [1, 1, 56], yields the consistency-failure error. -/
theorem verify_rejects_mismatched_public_input_witness :
    verify_halo2_proof (backendProofBytes (backendProve [1, 1, 55] 0)) [1, 1, 56] =
      .error ("Verifying proof error: InvalidSumcheck(\"Consistency failure at round 1\")") :=
  verify_rejects_mismatched_public_input 0 _ _ 56 (generate_out55_eq 0) (by decide)

/-- Claim C3: for all seed pairs (x, y) in instance slots 0 and 1 and a
declared output in slot 2, the synthesised constraint system (per-row gate
s * (a + b - c) = 0, the copy constraints, and the output-exposure equality)
is satisfied iff the 9th recurrence term from (x, y) equals the declared
output. -/
theorem constraints_satisfied_iff_ninth_term (x y out : Fr) :
    constraintsSatisfied [x, y, out] = true ↔ fibTerm x y 9 = out := by
  have h : constraintsSatisfied [x, y, out] =
      ((synthesizeRows x y).all gateHolds && copiesHold (synthesizeRows x y) &&
        instanceBindingsHold (synthesizeRows x y) [x, y, out]) := rfl
  rw [h]
  simp [synthesizeRows, synthesizeSteps, synthesizeLoop, loopCount, assign_first_row,
    assign_row, gateHolds, copiesHold, instanceBindingsHold, fibTerm]

/-- Claim C4: synthesis is exactly the sequence: first row with a = instance 0,
b = instance 1, c = a + b and the selector enabled; then exactly 7 `assign_row`
steps, the j-th having a = term(j+1), b = term(j+2) (the previous row's b and c)
and c = term(j+3) with the selector enabled; finally the output exposure of
term 9 at instance row 2 — no step skipped or reordered. -/
theorem synthesize_step_sequence (i0 i1 : Fr) :
    loopCount = 7 ∧
    synthesizeSteps i0 i1 =
      SynthStep.firstRow i0 i1 (i0 + i1) true ::
        (((List.range 7).map fun j =>
          SynthStep.nextRow (fibTerm i0 i1 (j + 1)) (fibTerm i0 i1 (j + 2))
            (fibTerm i0 i1 (j + 3)) true)
          ++ [SynthStep.exposePublic (fibTerm i0 i1 9) 2]) :=
  ⟨rfl, rfl⟩

/-- Claim C5 counterexample: the synthesised circuit does not allocate 9 rows
(row 0 plus the 7 loop rows make 8). -/
theorem synthesize_rows_ne_nine : (synthesizeRows 1 1).length ≠ 9 := by decide

/-- Claim C5 (amended): the synthesised circuit allocates exactly 8 rows —
row 0 is the seed row and rows 1 through 7 are recurrence rows — and these
8 used rows fit within the 2 ^ k = 16 row bound given by the size exponent
k = 4 used for setup and proving. -/
theorem synthesize_rows_eq_eight_within_bound (i0 i1 : Fr) :
    (synthesizeRows i0 i1).length = 8 ∧ 8 ≤ 2 ^ sizeExponent ∧ sizeExponent = 4 :=
  ⟨rfl, by decide, rfl⟩

/-- Claim C6 counterexample: a length-1 sequence whose 32-byte element encodes
the modulus (a non-canonical value) makes deserialisation panic via
`expect("Invalid bytes")` instead of returning an error result. -/
theorem decode_noncanonical_element_panics :
    decodeInputs (toBytesLE 8 1 ++ toBytesLE 32 frModulus) = .panic ("Invalid bytes") ∧
    decodeInputs (toBytesLE 8 1 ++ toBytesLE 32 frModulus) ≠ .error := by decide

/-- Claim C6 (amended): decoding fewer public-input bytes than announced
yields an error result, but a 32-byte element that is not a canonical field
encoding aborts with a panic (`expect("Invalid bytes")`) rather than
returning a SerializationError result. -/
theorem decode_short_errors_noncanonical_panics :
    (∀ bytes : List Nat, bytes.length < 8 → decodeInputs bytes = .error) ∧
    (∀ (count : Nat) (bytes : List Nat), bytes.length < 32 →
        decodeElems (count + 1) bytes = .error) ∧
    (∀ (count : Nat) (bytes : List Nat), 32 ≤ bytes.length →
        frFromBytes (bytes.take 32) = none →
        decodeElems (count + 1) bytes = .panic ("Invalid bytes")) := by
  refine ⟨?_, ?_, ?_⟩
  · intro bytes h
    unfold decodeInputs
    rw [if_pos h]
  · intro count bytes h
    rw [decodeElems_succ, if_pos h]
  · intro count bytes hge hnone
    rw [decodeElems_succ, if_neg (by omega), hnone]

/-- Claim C6 witness: concrete instances of the three amended behaviours. -/
theorem decode_short_errors_noncanonical_panics_witness :
    decodeInputs [0] = .error ∧ decodeElems 1 [0] = .error ∧
      decodeElems 1 (toBytesLE 32 frModulus) = .panic ("Invalid bytes") :=
  ⟨decode_short_errors_noncanonical_panics.1 [0] (by decide),
    decode_short_errors_noncanonical_panics.2.1 0 [0] (by decide),
    decode_short_errors_noncanonical_panics.2.2 0 (toBytesLE 32 frModulus) (by decide)
      (by decide)⟩

/-- Claim C7: a verification failure is distinguishable by the caller:
malformed proof framing yields the transcript error message, a well-formed
proof for a wrong statement yields the consistency-check message naming the
failing round, and the two error values differ. -/
theorem verify_error_kinds_distinguishable :
    (∀ (proof : List Nat) (inst : List Fr), parseProof proof = none →
        verify_halo2_proof proof inst =
          .error ("Verifying proof error: Transcript(\"invalid proof encoding\")")) ∧
    (∀ (pr : BackendProof) (inst : List Fr),
        pr.committedInstances.length = 3 → pr.blinding < 2 ^ 64 →
        ¬(pr.committedInstances = inst ∧ constraintsSatisfied inst = true) →
        verify_halo2_proof (backendProofBytes pr) inst =
          .error ("Verifying proof error: InvalidSumcheck(\"Consistency failure at round 1\")")) ∧
    ("Verifying proof error: Transcript(\"invalid proof encoding\")" ≠
      "Verifying proof error: InvalidSumcheck(\"Consistency failure at round 1\")") := by
  refine ⟨?_, ?_, by decide⟩
  · intro proof inst hparse
    unfold verify_halo2_proof backendVerifyBytes
    rw [hparse]
    rfl
  · intro pr inst hlen hb hcond
    obtain ⟨f0, f1, f2, hpr⟩ := List.length_eq_three.mp hlen
    have hpr' : pr = ⟨[f0, f1, f2], pr.blinding⟩ := by
      cases pr; simp_all
    rw [hpr']
    unfold verify_halo2_proof
    rw [backendVerifyBytes_roundTrip f0 f1 f2 pr.blinding hb inst]
    unfold backendVerify
    rw [if_neg (by rw [hpr'] at hcond; exact hcond)]
    rfl

/-- Claim C7 witness: an empty byte string gives the malformed-framing error,
while a well-formed proof for the unsatisfiable statement [1, 1, 56] gives the
round-1 consistency error. -/
theorem verify_error_kinds_distinguishable_witness :
    verify_halo2_proof [] [] =
      .error ("Verifying proof error: Transcript(\"invalid proof encoding\")") ∧
    verify_halo2_proof (backendProofBytes ⟨[1, 1, 56], 0⟩) [1, 1, 56] =
      .error ("Verifying proof error: InvalidSumcheck(\"Consistency failure at round 1\")") :=
  ⟨verify_error_kinds_distinguishable.1 [] [] (by decide),
    verify_error_kinds_distinguishable.2.1 ⟨[1, 1, 56], 0⟩ [1, 1, 56] (by decide) (by decide)
      (by decide)⟩

/-- Claim C8: serialising a public input vector of 3 field elements through
`InputsSerialisationWrapper` (length-prefixed sequence of 32-byte canonical
encodings) and deserialising the result yields exactly the original
elements. -/
theorem serialisation_roundtrip (v : List Fr) (h : v.length = 3) :
    decodeInputs (encodeInputs v) = .ok v :=
  decode_encode v (by rw [h]; norm_num)

/-- Claim C8 witness: the round trip at the boundary vector containing 0 and
the largest representable field element. -/
theorem serialisation_roundtrip_witness :
    decodeInputs (encodeInputs [0, frMax, 55]) = .ok [0, frMax, 55] :=
  serialisation_roundtrip [0, frMax, 55] rfl

/-- Claim C9: two prove calls with identical inputs and identical seeded
randomness produce identical results (byte-identical proofs), and two prove
calls with different randomness seeds produce different proof byte strings
that both verify against the same public input vector. -/
theorem prove_deterministic_and_randomised :
    (∀ (inputs : List (String × List Fr)) (rngSeed : Nat),
        generate_halo2_proof inputs rngSeed = generate_halo2_proof inputs rngSeed) ∧
    (∀ s1 s2 : Nat, s1 < 2 ^ 64 → s2 < 2 ^ 64 → s1 ≠ s2 →
        ∃ p1 p2 : List Nat,
          generate_halo2_proof [("out", [(55 : Fr)])] s1 = .ok (p1, [1, 1, 55]) ∧
          generate_halo2_proof [("out", [(55 : Fr)])] s2 = .ok (p2, [1, 1, 55]) ∧
          p1 ≠ p2 ∧
          verify_halo2_proof p1 [1, 1, 55] = .ok true ∧
          verify_halo2_proof p2 [1, 1, 55] = .ok true) := by
  refine ⟨fun _ _ => rfl, ?_⟩
  intro s1 s2 h1 h2 hne
  refine ⟨_, _, generate_out55_eq s1, generate_out55_eq s2, ?_, verify_prove55 s1,
    verify_prove55 s2⟩
  intro heq
  unfold backendProofBytes backendProve at heq
  have htail : toBytesLE 8 (s1 % 2 ^ 64) = toBytesLE 8 (s2 % 2 ^ 64) :=
    List.append_cancel_left heq
  have hv : s1 % 2 ^ 64 = s2 % 2 ^ 64 := by
    have e1 : fromBytesLE (toBytesLE 8 (s1 % 2 ^ 64)) = s1 % 2 ^ 64 :=
      fromBytesLE_toBytesLE 8 _ (by norm_num; exact Nat.mod_lt _ (by norm_num))
    have e2 : fromBytesLE (toBytesLE 8 (s2 % 2 ^ 64)) = s2 % 2 ^ 64 :=
      fromBytesLE_toBytesLE 8 _ (by norm_num; exact Nat.mod_lt _ (by norm_num))
    rw [← e1, ← e2, htail]
  rw [Nat.mod_eq_of_lt h1, Nat.mod_eq_of_lt h2] at hv
  exact hne hv

/-- Claim C9 witness: seeds 0 and 1 give distinct proofs that both verify. -/
theorem prove_deterministic_and_randomised_witness :
    ∃ p1 p2 : List Nat,
      generate_halo2_proof [("out", [(55 : Fr)])] 0 = .ok (p1, [1, 1, 55]) ∧
      generate_halo2_proof [("out", [(55 : Fr)])] 1 = .ok (p2, [1, 1, 55]) ∧
      p1 ≠ p2 ∧
      verify_halo2_proof p1 [1, 1, 55] = .ok true ∧
      verify_halo2_proof p2 [1, 1, 55] = .ok true :=
  prove_deterministic_and_randomised.2 0 1 (by decide) (by decide) (by decide)

/-- Claim C10: every successful `generate_halo2_proof` (and the plonk crate's
`prove_with_params`) builds the public input vector as exactly [1, 1, out]
with `out` taken from the input map's `out` entry: the seeds are hard-coded
to the field element 1, so the vector has length 3 with its first two
elements equal to 1 and no other seed pair can be proved. -/
theorem public_input_seeds_hardcoded :
    (∀ (inputs : List (String × List Fr)) (rngSeed : Nat) (proof : List Nat) (pub : List Fr),
        generate_halo2_proof inputs rngSeed = .ok (proof, pub) →
        ∃ vs out, lookupInput inputs "out" = some vs ∧ vs.head? = some out ∧
          pub = [1, 1, out]) ∧
    (∀ (circuitInputs : List (String × List Fr)) (pub : List Fr),
        plonkPublicInput circuitInputs = .ok pub →
        ∃ vs out, lookupInput circuitInputs "out" = some vs ∧ vs.head? = some out ∧
          pub = [1, 1, out]) := by
  constructor
  · intro inputs rngSeed proof pub hgen
    simp only [generate_halo2_proof] at hgen
    cases hl : lookupInput inputs "out" with
    | none => simp only [hl] at hgen; simp at hgen
    | some vs =>
      simp only [hl] at hgen
      cases hh : vs.head? with
      | none => simp only [hh] at hgen; simp at hgen
      | some out =>
        simp only [hh] at hgen
        cases hgen
        exact ⟨vs, out, rfl, hh, rfl⟩
  · intro circuitInputs pub hgen
    simp only [plonkPublicInput] at hgen
    cases hl : lookupInput circuitInputs "out" with
    | none => simp only [hl] at hgen; simp at hgen
    | some vs =>
      simp only [hl] at hgen
      cases hh : vs.head? with
      | none => simp only [hh] at hgen; simp at hgen
      | some out =>
        simp only [hh] at hgen
        cases hgen
        exact ⟨vs, out, rfl, hh, rfl⟩

/-- Claim C10 witness: with the input map binding `out` to [55], both proving
paths produce the public input vector [1, 1, 55]. -/
theorem public_input_seeds_hardcoded_witness :
    (∃ vs out, lookupInput [("out", [(55 : Fr)])] "out" = some vs ∧ vs.head? = some out ∧
      [1, 1, (55 : Fr)] = [1, 1, out]) ∧
    (∃ vs out, lookupInput [("out", [(55 : Fr)])] "out" = some vs ∧ vs.head? = some out ∧
      [1, 1, (55 : Fr)] = [1, 1, out]) :=
  ⟨public_input_seeds_hardcoded.1 [("out", [55])] 0
      (backendProofBytes (backendProve [1, 1, 55] 0)) [1, 1, 55] (generate_out55_eq 0),
    public_input_seeds_hardcoded.2 [("out", [55])] [1, 1, 55] rfl⟩
